import Mathlib

/-
Shallow embedding of the connectivity-matrix generator of the pyAL repository
(`src/support_functions/connect_mat.py`, function `initializeConnectionMatrices`)
and of the digit-queue assembly loop of the experiment driver
(`src/runMothLearnerMNIST.py`).

Modelling conventions:
* numpy float arrays are modelled as total functions into `ℚ`; `clip(min=0)`
  is `max 0 _`, `clip(max=c)` is `min _ c`.
* every call to a random generator (`r.rand`, `np.random.gamma`,
  `np.random.randint`) consumes a value from a dedicated stream in `Draws`;
  a theorem quantifying over `Draws` therefore quantifies over every possible
  sequence of random draws.
* the boolean mask arrays (`F2Rbinary`, `P2KconnMatrix`, `randList`) are
  modelled as 0/1 valued rational matrices, matching how numpy coerces them
  in the subsequent arithmetic.
* the one run-time failure of the source (a `TypeError` raised inside the
  orthogonalization branch, see `orthoCrash` below) is modelled with
  `Except String`; every other path of the source raises no exception and is
  modelled as total.
-/

namespace PyAL

/-- Scalar hyper-parameters of the `mP` (model-params) object read by
`initializeConnectionMatrices` in `src/support_functions/connect_mat.py`.
The layer sizes `nR` (receptors), `nF` (features), `nG` (glomeruli),
`nK` (Kenyon cells), `nP` (projection neurons) are type-level parameters. -/
structure ModelParams (nR nF nG nK nP : ℕ) where
  RperFFrMu : ℚ
  RperSFrMu : ℚ
  makeFeaturesOrthogonalFlag : Bool
  RperFRawNum : ℕ
  F2Rmu : ℚ
  F2Rstd : ℚ
  spontRdistFlag : ℕ
  spontRmu : ℚ
  spontRstd : ℚ
  spontRbase : ℚ
  R2Gmu : ℚ
  R2Gstd : ℚ
  R2Pmult : ℚ
  R2Pstd : ℚ
  R2Lmult : ℚ
  R2Lstd : ℚ
  R2PImult : ℚ
  R2PIstd : ℚ
  L2Gmu : ℚ
  L2Gstd : ℚ
  L2Gfr : ℚ
  GsensMu : ℚ
  GsensStd : ℚ
  L2Rmult : ℚ
  L2Rstd : ℚ
  L2Pmult : ℚ
  L2Pstd : ℚ
  L2Lmult : ℚ
  L2Lstd : ℚ
  L2PIstd : ℚ
  KperPfrMu : ℚ
  P2Kmu : ℚ
  P2Kstd : ℚ
  hebMaxPK : ℚ

/-- One stream of values per random-generator call site of
`initializeConnectionMatrices`, in source order.  Streams named `..U` stand
for `r.rand` uniform draws (values in `[0,1)`); `gammaG` stands for the
`np.random.gamma` variates (nonnegative); `faninR` stands for the
`np.random.randint(2)` draws of the fixed-fan-in branch (values in `{0,1}`). -/
structure Draws where
  f2rU : ℕ → ℕ → ℚ
  faninR : ℕ → ℕ
  matU : ℕ → ℕ → ℚ
  spontU : ℕ → ℚ
  gammaG : ℕ → ℚ
  r2gU : ℕ → ℚ
  r2pU : ℕ → ℚ
  r2lU : ℕ → ℚ
  r2piU : ℕ → ℚ
  l2gU : ℕ → ℕ → ℚ
  killU : ℕ → ℚ
  gabaU : ℕ → ℚ
  l2rU : ℕ → ℕ → ℚ
  l2pU : ℕ → ℕ → ℚ
  l2lU : ℕ → ℕ → ℚ
  l2piU : ℕ → ℕ → ℚ
  p2kConnU : ℕ → ℕ → ℚ
  p2kU : ℕ → ℕ → ℚ

/-- The numpy idiom `r.rand(...) < p`, one entry: 1 when the uniform draw is
below the threshold, else 0. -/
def bern (u p : ℚ) : ℚ := if u < p then 1 else 0

variable {nR nF nG nK nP : ℕ}

/-- Line 25: `mP.F2Rbinary = r.rand(mP.nR, mP.nF) < mP.RperSFrMu`.
Note: the source thresholds against `RperSFrMu`, although the enclosing
branch is guarded by `mP.RperFFrMu > 0`. -/
def f2rBernoulli (mP : ModelParams nR nF nG nK nP) (d : Draws) :
    Fin nR → Fin nF → ℚ :=
  fun i j => bern (d.f2rU i j) mP.RperSFrMu

/-- Line 42: `maxFperR = np.ceil(mP.nF*mP.RperFRawNum/mP.nR)` (true division,
then ceiling). -/
def maxFperR (nR nF rawNum : ℕ) : ℚ :=
  ((⌈((nF * rawNum : ℕ) : ℚ) / (nR : ℚ)⌉ : ℤ) : ℚ)

/-- State of the fixed-fan-in loop (lines 39-49): `counts` is the
`np.zeros((nR,1))` tally, `mask` is the `F2Rbinary` under construction. -/
structure FanState (nR nF : ℕ) where
  counts : Fin nR → ℚ
  mask : Fin nR → Fin nF → ℚ

/-- Rows eligible at this iteration: `np.where(counts < maxFperR)` applied to
the `(nR,1)` array `counts` yields the tuple `(rowIndices, columnIndices)`
where `rowIndices` lists every row with `counts < maxFperR` (in order) and
`columnIndices` is an equally long array of zeroes. -/
def fanEligible (st : FanState nR nF) (cap : ℚ) : List (Fin nR) :=
  (List.finRange nR).filter (fun i => st.counts i < cap)

/-- One iteration of the inner fan-in loop body (lines 46-49), at column
`j = t % nF` with `randint` draw `a`:

*  `inds = np.where(counts < maxFperR)` is a 2-tuple, so `len(inds) = 2` and
   `a = np.random.randint(len(inds))` is 0 or 1 (not an index into the
   eligible rows);
*  `a = 0`: `counts[inds[0]] += 1` increments every eligible row and
   `mP.F2Rbinary[inds[0], j] = 1` sets column `j` of every eligible row;
*  `a = 1`: `inds[1]` is an all-zero index array, so (by numpy's buffered
   fancy-index `+=`) `counts[0]` is incremented once and entry `(0, j)` is
   set, regardless of whether row 0 is still below the cap;
*  when no row is eligible both operations are no-ops. -/
def fanStep (cap : ℚ) (j : ℕ) (a : ℕ) (st : FanState nR nF) : FanState nR nF :=
  match fanEligible st cap with
  | [] => st
  | e :: _ =>
    if a % 2 = 1 then
      { counts := fun i => if i = (⟨0, e.pos⟩ : Fin nR) then st.counts i + 1 else st.counts i
        mask := fun i j' =>
          if i = (⟨0, e.pos⟩ : Fin nR) ∧ (j' : ℕ) = j then 1 else st.mask i j' }
    else
      { counts := fun i => if st.counts i < cap then st.counts i + 1 else st.counts i
        mask := fun i j' =>
          if st.counts i < cap ∧ (j' : ℕ) = j then 1 else st.mask i j' }

/-- The fixed-fan-in branch (lines 38-49): the double loop
`for i in range(RperFRawNum): for j in range(nF):` flattened into a single
iteration counter `t`, with column `j = t % nF`. -/
def fanInMask (mP : ModelParams nR nF nG nK nP) (d : Draws) :
    Fin nR → Fin nF → ℚ :=
  ((List.range (mP.RperFRawNum * nF)).foldl
    (fun st t => fanStep (maxFperR nR nF mP.RperFRawNum) (t % nF) (d.faninR t) st)
    ⟨fun _ => 0, fun _ _ => 0⟩).mask

/-- The binary feature-to-receptor mask `mP.F2Rbinary` (lines 24-49):
Bernoulli mask when `RperFFrMu > 0`, fixed-fan-in mask otherwise. -/
def f2rBinary (mP : ModelParams nR nF nG nK nP) (d : Draws) :
    Fin nR → Fin nF → ℚ :=
  if 0 < mP.RperFFrMu then f2rBernoulli mP d else fanInMask mP d

/-- Lines 26-36 (orthogonalization branch): for the first row of `F2Rbinary`
with `row.sum() > 1` the source executes `c = np.where(row==1)` (a tuple of
index arrays) and then `t = np.ceil(r.rand(1, c))`; `np.random.rand` only
accepts integer dimension arguments, so this call raises a `TypeError`.
Hence the branch crashes exactly when it is reached (RperFFrMu > 0 and the
orthogonalize flag set) and some row of the Bernoulli mask has more than one
active entry; otherwise the loop body never fires and the mask is unchanged. -/
def orthoCrash (mP : ModelParams nR nF nG nK nP) (d : Draws) : Bool :=
  decide (0 < mP.RperFFrMu) && mP.makeFeaturesOrthogonalFlag &&
    decide (∃ i : Fin nR, 1 < ∑ j : Fin nF, f2rBernoulli mP d i j)

/-- Lines 52-54: `mP.F2R = (mP.F2Rmu*mP.F2Rbinary + mP.F2Rstd*rand_mat)*mP.F2Rbinary`
clipped at 0 from below. -/
def f2rWeights (mP : ModelParams nR nF nG nK nP) (d : Draws) :
    Fin nR → Fin nF → ℚ :=
  fun i j =>
    max 0 ((mP.F2Rmu * f2rBinary mP d i j + mP.F2Rstd * d.matU i j) * f2rBinary mP d i j)

/-- Lines 56-64: spontaneous receptor firing rates; Gaussian branch
(`spontRdistFlag == 1`, clipped at 0) or gamma branch
(`spontRbase + gamma-variate`, not clipped).  This gives the value on the
non-crashing runs only: the gamma branch's own failure paths (the
`ZeroDivisionError`/`ValueError` of the parameter computations of lines
61-63) are modelled separately in `gammaBranchError` and surface as
`Except.error` in `initializeConnectionMatrices`. -/
def rspont (mP : ModelParams nR nF nG nK nP) (d : Draws) : Fin nG → ℚ :=
  fun i =>
    if mP.spontRdistFlag = 1 then max 0 (mP.spontRmu + mP.spontRstd * d.spontU i)
    else mP.spontRbase + d.gammaG i

/-- Line 67: `mP.R2G = mP.R2Gmu*np.ones((nG,1)) + mP.R2Gstd*r.rand(nG,1)`
(no clipping). -/
def r2g (mP : ModelParams nR nF nG nK nP) (d : Draws) : Fin nG → ℚ :=
  fun i => mP.R2Gmu + mP.R2Gstd * d.r2gU i

/-- Line 71: `mP.R2P = (mP.R2Pmult + mP.R2Pstd*r.rand(nG,1))*mP.R2G`. -/
def r2p (mP : ModelParams nR nF nG nK nP) (d : Draws) : Fin nG → ℚ :=
  fun i => (mP.R2Pmult + mP.R2Pstd * d.r2pU i) * r2g mP d i

/-- Line 72: `mP.R2L = (mP.R2Lmult + mP.R2Lstd*r.rand(nG,1))*mP.R2G`. -/
def r2l (mP : ModelParams nR nF nG nK nP) (d : Draws) : Fin nG → ℚ :=
  fun i => (mP.R2Lmult + mP.R2Lstd * d.r2lU i) * r2g mP d i

/-- Line 75: `mP.R2PIcol = (mP.R2PImult + mP.R2PIstd*r.rand(nG,1))*mP.R2G`. -/
def r2piCol (mP : ModelParams nR nF nG nK nP) (d : Draws) : Fin nG → ℚ :=
  fun i => (mP.R2PImult + mP.R2PIstd * d.r2piU i) * r2g mP d i

/-- Lines 81-82: `mP.L2G = mP.L2Gmu + mP.L2Gstd*r.rand(nG,nG)` clipped at 0. -/
def l2gClipped (mP : ModelParams nR nF nG nK nP) (d : Draws) :
    Fin nG → Fin nG → ℚ :=
  fun i j => max 0 (mP.L2Gmu + mP.L2Gstd * d.l2gU i j)

/-- Line 84: `mP.L2G -= np.diag(np.diag(mP.L2G))`: diagonal entries become
exactly 0, off-diagonal entries are unchanged. -/
def l2gDiagZero (mP : ModelParams nR nF nG nK nP) (d : Draws) :
    Fin nG → Fin nG → ℚ :=
  fun i j => if i = j then 0 else l2gClipped mP d i j

/-- Row index of flat (C-order) position `k` of an `nG × nG` array. -/
def flatRow (k : Fin (nG * nG)) : Fin nG :=
  ⟨(k : ℕ) / nG, Nat.div_lt_of_lt_mul k.isLt⟩

/-- Column index of flat (C-order) position `k` of an `nG × nG` array. -/
def flatCol (k : Fin (nG * nG)) : Fin nG :=
  ⟨(k : ℕ) % nG, by
    rcases Nat.eq_zero_or_pos nG with h0 | h0
    · exact absurd k.isLt (by simp [h0])
    · exact Nat.mod_lt _ h0⟩

/-- Line 90: `mP.L2G.flatten()` (C order, row-major). -/
def l2gFlat (mP : ModelParams nR nF nG nK nP) (d : Draws) :
    Fin (nG * nG) → ℚ :=
  fun k => l2gDiagZero mP d (flatRow k) (flatCol k)

/-- Line 87: `numZero = (mP.L2G.flatten()==0).sum() - mP.nG`
(count of zero entries, minus the `nG` diagonal zeroes). -/
def l2gZeroCount (mP : ModelParams nR nF nG nK nP) (d : Draws) : ℕ :=
  (Finset.univ.filter (fun k : Fin (nG * nG) => l2gFlat mP d k = 0)).card

/-- The `numZero` value of line 87, as an integer. -/
def numZero (mP : ModelParams nR nF nG nK nP) (d : Draws) : ℤ :=
  (l2gZeroCount mP d : ℤ) - nG

/-- Line 88: `numToKill = np.floor((1-mP.L2Gfr)*(nG**2 - nG) - numZero)`. -/
def numToKill (mP : ModelParams nR nF nG nK nP) (d : Draws) : ℤ :=
  ⌊(1 - mP.L2Gfr) * ((nG : ℚ) ^ 2 - (nG : ℚ)) - (numZero mP d : ℚ)⌋

/-- Line 91: the Bernoulli-thinning threshold
`numToKill/(nG**2 - nG - numZero)`. -/
def killThreshold (mP : ModelParams nR nF nG nK nP) (d : Draws) : ℚ :=
  (numToKill mP d : ℚ) / ((nG : ℚ) ^ 2 - (nG : ℚ) - (numZero mP d : ℚ))

/-- Lines 91-92: `randList = r.rand(*shape) < numToKill/(...)` and then
`mP.L2G[(mP.L2G > 0) & (randList == 1)] = 0` on the flattened array. -/
def l2gKilledFlat (mP : ModelParams nR nF nG nK nP) (d : Draws) :
    Fin (nG * nG) → ℚ :=
  fun k =>
    if 0 < l2gFlat mP d k ∧ d.killU k < killThreshold mP d then 0
    else l2gFlat mP d k

/-- Flat (C-order) position holding entry `(j, i)`, used to express the
Fortran-order reshape of line 94. -/
def transIdx (i j : Fin nG) : Fin (nG * nG) :=
  ⟨(j : ℕ) * nG + (i : ℕ), by
    have hj : (j : ℕ) + 1 ≤ nG := j.isLt
    calc (j : ℕ) * nG + (i : ℕ) < (j : ℕ) * nG + nG := by
          exact Nat.add_lt_add_left i.isLt _
      _ = ((j : ℕ) + 1) * nG := by ring
      _ ≤ nG * nG := Nat.mul_le_mul_right _ hj⟩

/-- Lines 89-94: when `numToKill > 0` the matrix was flattened in C order and
is reshaped with `order="F"`, which transposes it (`new[i,j] = flat[j*nG+i]`);
when `numToKill <= 0` the kill step is skipped and
`reshape((nG,nG), order="F")` of the untouched 2-D array is the identity. -/
def l2gFinal (mP : ModelParams nR nF nG nK nP) (d : Draws) :
    Fin nG → Fin nG → ℚ :=
  fun i j =>
    if 0 < numToKill mP d then l2gKilledFlat mP d (transIdx i j)
    else l2gDiagZero mP d i j

/-- Line 101: `gabaSens = mP.GsensMu + mP.GsensStd*r.rand(nG,1)`. -/
def gabaSens (mP : ModelParams nR nF nG nK nP) (d : Draws) : Fin nG → ℚ :=
  fun i => mP.GsensMu + mP.GsensStd * d.gabaU i

/-- Line 102: `L2GgabaSens = mP.L2G * np.tile(gabaSens, (1, nG))`
(row `i` of the reshaped `L2G` scaled by `gabaSens i`). -/
def l2gGaba (mP : ModelParams nR nF nG nK nP) (d : Draws) :
    Fin nG → Fin nG → ℚ :=
  fun i j => l2gFinal mP d i j * gabaSens mP d i

/-- Line 105: `mP.L2G *= mP.GsensMu` — the `L2G` field as finally returned. -/
def l2gScaled (mP : ModelParams nR nF nG nK nP) (d : Draws) :
    Fin nG → Fin nG → ℚ :=
  fun i j => l2gFinal mP d i j * mP.GsensMu

/-- Line 108: `mP.L2R = (mP.L2Rmult + mP.L2Rstd*r.rand(nG,nG)).clip(min=0) * L2GgabaSens`. -/
def l2r (mP : ModelParams nR nF nG nK nP) (d : Draws) :
    Fin nG → Fin nG → ℚ :=
  fun i j => max 0 (mP.L2Rmult + mP.L2Rstd * d.l2rU i j) * l2gGaba mP d i j

/-- Line 110: `mP.L2P = (mP.L2Pmult + mP.L2Pstd*r.rand(nG,nG)).clip(min=0) * L2GgabaSens`. -/
def l2p (mP : ModelParams nR nF nG nK nP) (d : Draws) :
    Fin nG → Fin nG → ℚ :=
  fun i j => max 0 (mP.L2Pmult + mP.L2Pstd * d.l2pU i j) * l2gGaba mP d i j

/-- Line 111: `mP.L2L = (mP.L2Lmult + mP.L2Lstd*r.rand(nG,nG)).clip(min=0) * L2GgabaSens`. -/
def l2l (mP : ModelParams nR nF nG nK nP) (d : Draws) :
    Fin nG → Fin nG → ℚ :=
  fun i j => max 0 (mP.L2Lmult + mP.L2Lstd * d.l2lU i j) * l2gGaba mP d i j

/-- Line 112: `mP.L2PI = (mP.L2Lmult + mP.L2PIstd*r.rand(nG,nG)).clip(min=0) * L2GgabaSens`
(the source reads `L2Lmult`, not an `L2PImult`, here). -/
def l2pi (mP : ModelParams nR nF nG nK nP) (d : Draws) :
    Fin nG → Fin nG → ℚ :=
  fun i j => max 0 (mP.L2Lmult + mP.L2PIstd * d.l2piU i j) * l2gGaba mP d i j

/-- Line 116: `P2KconnMatrix = r.rand(nK, nP) < mP.KperPfrMu`. -/
def p2kConn (mP : ModelParams nR nF nG nK nP) (d : Draws) :
    Fin nK → Fin nP → ℚ :=
  fun i j => bern (d.p2kConnU i j) mP.KperPfrMu

/-- Lines 119-123: `mP.P2K = (mP.P2Kmu + mP.P2Kstd*r.rand(nK,nP)).clip(min=0)`,
then `mP.P2K *= P2KconnMatrix`, then `mP.P2K = mP.P2K.clip(max=mP.hebMaxPK)`. -/
def p2k (mP : ModelParams nR nF nG nK nP) (d : Draws) :
    Fin nK → Fin nP → ℚ :=
  fun i j =>
    min (max 0 (mP.P2Kmu + mP.P2Kstd * d.p2kU i j) * p2kConn mP d i j) mP.hebMaxPK

/-- The connection matrices and vectors produced by
`initializeConnectionMatrices` (the fields it assigns on `mP`). -/
structure ConnMats (nR nF nG nK nP : ℕ) where
  F2Rbinary : Fin nR → Fin nF → ℚ
  F2R : Fin nR → Fin nF → ℚ
  Rspont : Fin nG → ℚ
  R2G : Fin nG → ℚ
  R2P : Fin nG → ℚ
  R2L : Fin nG → ℚ
  R2PIcol : Fin nG → ℚ
  L2G : Fin nG → Fin nG → ℚ
  L2R : Fin nG → Fin nG → ℚ
  L2P : Fin nG → Fin nG → ℚ
  L2L : Fin nG → Fin nG → ℚ
  L2PI : Fin nG → Fin nG → ℚ
  P2K : Fin nK → Fin nP → ℚ

/-- The matrices built by the non-crashing execution of
`initializeConnectionMatrices`. -/
def buildMatrices (mP : ModelParams nR nF nG nK nP) (d : Draws) :
    ConnMats nR nF nG nK nP where
  F2Rbinary := f2rBinary mP d
  F2R := f2rWeights mP d
  Rspont := rspont mP d
  R2G := r2g mP d
  R2P := r2p mP d
  R2L := r2l mP d
  R2PIcol := r2piCol mP d
  L2G := l2gScaled mP d
  L2R := l2r mP d
  L2P := l2p mP d
  L2L := l2l mP d
  L2PI := l2pi mP d
  P2K := p2k mP d

/-- The exception text of the failure modelled by `orthoCrash`. -/
def typeErrorMsg : String :=
  "TypeError: np.random.rand called with a tuple dimension argument"

/-- The exception text of a Python division by zero. -/
def zeroDivErrorMsg : String := "ZeroDivisionError: division by zero"

/-- The exception text of `np.random.gamma` rejecting a negative shape or
scale parameter. -/
def valueErrorMsg : String := "ValueError: gamma parameters must be nonnegative"

/-- Line 42, fixed-fan-in branch only: `np.ceil(mP.nF*mP.RperFRawNum/mP.nR)`
raises `ZeroDivisionError` when `nR = 0`. -/
def faninDivCrash (mP : ModelParams nR nF nG nK nP) : Bool :=
  !(decide (0 < mP.RperFFrMu)) && decide (nR = 0)

/-- Failure analysis of the spontaneous-rate computation (lines 57-63).  The
Gaussian branch (`spontRdistFlag == 1`) cannot fail.  The gamma branch
computes `a = mP.spontRmu/mP.spontRstd` (line 61, `ZeroDivisionError` when
`spontRstd = 0`), then `b = mP.spontRmu/a` (line 62, `ZeroDivisionError`
when `a = 0`, i.e. when `spontRmu = 0`), then calls
`np.random.gamma(a, scale=b, ...)` (line 63), which raises `ValueError` on a
negative shape or scale.  `none` means the computation completes. -/
def gammaBranchError (mP : ModelParams nR nF nG nK nP) : Option String :=
  if mP.spontRdistFlag = 1 then none
  else if mP.spontRstd = 0 then some zeroDivErrorMsg
  else
    let a : ℚ := mP.spontRmu / mP.spontRstd
    if a = 0 then some zeroDivErrorMsg
    else
      let b : ℚ := mP.spontRmu / a
      if a < 0 ∨ b < 0 then some valueErrorMsg
      else none

/-- `initializeConnectionMatrices` (src/support_functions/connect_mat.py):
performs no validation of `mP`.  Its run-time failures, in source order, are
the `TypeError` of the orthogonalization branch (see `orthoCrash`, lines
26-36), the `ZeroDivisionError` of the fixed-fan-in cap computation with
`nR = 0` (see `faninDivCrash`, line 42), and the gamma-branch
`ZeroDivisionError`/`ValueError` of the spontaneous-rate parameters (see
`gammaBranchError`, lines 61-63); otherwise it produces the connection
matrices of `buildMatrices`. -/
def initializeConnectionMatrices (mP : ModelParams nR nF nG nK nP) (d : Draws) :
    Except String (ConnMats nR nF nG nK nP) :=
  if orthoCrash mP d then Except.error typeErrorMsg
  else if faninDivCrash mP then Except.error zeroDivErrorMsg
  else
    match gammaBranchError mP with
    | some e => Except.error e
    | none => Except.ok (buildMatrices mP d)

/-!  ### Digit-queue assembly of the driver

`src/runMothLearnerMNIST.py`, lines 196-222: `digitQueues = np.zeros(fA.shape)`
followed, per class, by three slice assignments writing sample columns
`[0, val_per_class)`, `[val_per_class, val_per_class + tr_per_class*num_sniffs)`
and `[val_per_class + tr_per_class*num_sniffs, 2*val_per_class + tr_per_class*num_sniffs)`.
`P` is the pixel count, `M` the samples-per-class count and `C` the class
count of the feature array `fA`; the index streams `bI`, `tI`, `pI` stand for
the `min(pool) + np.random.choice(...)` sample indices of the three phases
(the training stream is consumed through the `np.tile` pattern `k % t`).
The slice assignments require `2*v + t*s ≤ M` (otherwise numpy raises a
shape-mismatch `ValueError`); theorems about the assembled array carry that
hypothesis. -/

/-- One numpy slice assignment
`digitQueues[:, lo:lo+len, cls] = fA[:, inds, cls]`. -/
def writeSlice {P M C : ℕ} (fA : Fin P → Fin M → Fin C → ℚ) (cls : Fin C)
    (lo len : ℕ) (inds : ℕ → Fin M) (q : Fin P → Fin M → Fin C → ℚ) :
    Fin P → Fin M → Fin C → ℚ :=
  fun px col c =>
    if c = cls ∧ lo ≤ (col : ℕ) ∧ (col : ℕ) < lo + len then
      fA px (inds ((col : ℕ) - lo)) cls
    else q px col c

/-- The per-run digit-queue assembly loop (driver lines 196-222), with
`v = val_per_class`, `t = tr_per_class`, `s = num_sniffs`. -/
def digitQueues {P M C : ℕ} (fA : Fin P → Fin M → Fin C → ℚ) (v t s : ℕ)
    (bI tI pI : Fin C → ℕ → Fin M) : Fin P → Fin M → Fin C → ℚ :=
  (List.finRange C).foldl
    (fun q i =>
      writeSlice fA i (v + t * s) v (pI i)
        (writeSlice fA i v (t * s) (fun k => tI i (k % t))
          (writeSlice fA i 0 v (bI i) q)))
    (fun _ _ _ => 0)

/-!  ### Concrete instances used by counterexamples and witnesses -/

/-- A baseline parameter record with every rational field zero except:
probabilities `RperFFrMu`, `RperSFrMu`, `KperPfrMu` and the target sparsity
`L2Gfr` set to 1; Gaussian spontaneous rates (`spontRdistFlag = 1`);
`RperFRawNum = 1`; Hebbian ceiling 1; orthogonalize flag off. -/
def baseParams (nR nF nG nK nP : ℕ) : ModelParams nR nF nG nK nP where
  RperFFrMu := 1
  RperSFrMu := 1
  makeFeaturesOrthogonalFlag := false
  RperFRawNum := 1
  F2Rmu := 0
  F2Rstd := 0
  spontRdistFlag := 1
  spontRmu := 0
  spontRstd := 0
  spontRbase := 0
  R2Gmu := 0
  R2Gstd := 0
  R2Pmult := 0
  R2Pstd := 0
  R2Lmult := 0
  R2Lstd := 0
  R2PImult := 0
  R2PIstd := 0
  L2Gmu := 0
  L2Gstd := 0
  L2Gfr := 1
  GsensMu := 0
  GsensStd := 0
  L2Rmult := 0
  L2Rstd := 0
  L2Pmult := 0
  L2Pstd := 0
  L2Lmult := 0
  L2Lstd := 0
  L2PIstd := 0
  KperPfrMu := 1
  P2Kmu := 0
  P2Kstd := 0
  hebMaxPK := 1

/-- The all-zero draw sequence (a legitimate draw sequence: every uniform
draw is in `[0,1)` and every gamma variate is nonnegative). -/
def zeroDraws : Draws where
  f2rU := fun _ _ => 0
  faninR := fun _ => 0
  matU := fun _ _ => 0
  spontU := fun _ => 0
  gammaG := fun _ => 0
  r2gU := fun _ => 0
  r2pU := fun _ => 0
  r2lU := fun _ => 0
  r2piU := fun _ => 0
  l2gU := fun _ _ => 0
  killU := fun _ => 0
  gabaU := fun _ => 0
  l2rU := fun _ _ => 0
  l2pU := fun _ _ => 0
  l2lU := fun _ _ => 0
  l2piU := fun _ _ => 0
  p2kConnU := fun _ _ => 0
  p2kU := fun _ _ => 0

/-- The draw-nonnegativity facts used by the nonnegativity theorem: uniform
draws (`r.rand`) lie in `[0,1)` so are nonnegative, and gamma variates are
nonnegative.  Only the streams feeding unclipped expressions are needed. -/
def Draws.Nonneg (d : Draws) : Prop :=
  (∀ k, 0 ≤ d.gammaG k) ∧ (∀ k, 0 ≤ d.r2gU k) ∧ (∀ k, 0 ≤ d.r2pU k) ∧
    (∀ k, 0 ≤ d.r2lU k) ∧ (∀ k, 0 ≤ d.r2piU k) ∧ (∀ k, 0 ≤ d.gabaU k)

/-- Nonnegativity of the scalar hyper-parameters that feed unclipped
expressions of `initializeConnectionMatrices`: the spontaneous-rate base, the
`R2G`-family means/multipliers and stds, the GABA-sensitivity mean and std,
and the Hebbian ceiling. -/
def ModelParams.NonnegConfig (mP : ModelParams nR nF nG nK nP) : Prop :=
  0 ≤ mP.spontRbase ∧ 0 ≤ mP.R2Gmu ∧ 0 ≤ mP.R2Gstd ∧
    0 ≤ mP.R2Pmult ∧ 0 ≤ mP.R2Pstd ∧ 0 ≤ mP.R2Lmult ∧ 0 ≤ mP.R2Lstd ∧
    0 ≤ mP.R2PImult ∧ 0 ≤ mP.R2PIstd ∧ 0 ≤ mP.GsensMu ∧ 0 ≤ mP.GsensStd ∧
    0 ≤ mP.hebMaxPK

/-- Number of non-zero entries of `L2G` right after the down-sampling step
(the reshaped matrix of line 94, before the `GsensMu` scaling). -/
def l2gNonzeroCount (mP : ModelParams nR nF nG nK nP) (d : Draws) : ℕ :=
  (Finset.univ.filter (fun q : Fin nG × Fin nG => l2gFinal mP d q.1 q.2 ≠ 0)).card

/-- Number of entries zeroed by the Bernoulli-thinning step of lines 91-92. -/
def killCount (mP : ModelParams nR nF nG nK nP) (d : Draws) : ℕ :=
  (Finset.univ.filter
    (fun k : Fin (nG * nG) =>
      0 < l2gFlat mP d k ∧ d.killU k < killThreshold mP d)).card

/-- C1 counterexample input: a negative `R2Pmult` (with `R2Gmu = 1`) flows
into `R2P` unclipped. -/
def mPc1 : ModelParams 1 1 1 1 1 :=
  { baseParams 1 1 1 1 1 with R2Pmult := -1, R2Gmu := 1 }

/-- C2 counterexample input: a negative Hebbian ceiling. -/
def mPc2 : ModelParams 1 1 1 1 1 := { baseParams 1 1 1 1 1 with hebMaxPK := -1 }

/-- C3 counterexample input: `nG = 3`, all off-diagonal `L2G` entries 1,
target sparsity fraction 1/2; with the all-zero kill draws every positive
entry is thinned away. -/
def mPc3 : ModelParams 1 1 3 1 1 :=
  { baseParams 1 1 3 1 1 with L2Gmu := 1, L2Gfr := 1/2 }

/-- C3 witness draws: exactly the three flat positions 1, 2, 3 (all holding
positive entries) receive kill draws below the threshold 1/2. -/
def dc3w : Draws := { zeroDraws with killU := fun k => if k < 4 then 0 else 1 }

/-- C5 counterexample input: `RperFFrMu = 1/2` and `RperSFrMu = 9/10`
disagree; the uniform draw 7/10 lies between them. -/
def mPc5 : ModelParams 1 1 1 1 1 :=
  { baseParams 1 1 1 1 1 with RperFFrMu := 1/2, RperSFrMu := 9/10 }

/-- Draw sequence whose `F2Rbinary` uniform draws are all 7/10. -/
def dc5 : Draws := { zeroDraws with f2rU := fun _ _ => 7/10 }

/-- C6 failing input: orthogonalize flag set, `nR = 1`, `nF = 2`; with the
all-zero draws and `RperSFrMu = 1` both entries of the single row are active. -/
def mPc6 : ModelParams 1 2 1 1 1 :=
  { baseParams 1 2 1 1 1 with makeFeaturesOrthogonalFlag := true }

/-- C7 failing input: `RperFFrMu = 0` selects the fixed-fan-in branch with
`nR = nF = 3` and `RperFRawNum = 1` (cap `ceil(3*1/3) = 1`). -/
def mPc7 : ModelParams 3 3 1 1 1 := { baseParams 3 3 1 1 1 with RperFFrMu := 0 }

/-- Draw sequence whose `randint(2)` draws are all 1: every iteration takes
the `inds[1]` (all-zero index array) case and piles connections onto row 0. -/
def dc7 : Draws := { zeroDraws with faninR := fun _ => 1 }

/-- C8 counterexample input: connection probability `RperSFrMu = 3/2`
outside `[0,1]` and negative stds. -/
def mPc8 : ModelParams 1 1 1 1 1 :=
  { baseParams 1 1 1 1 1 with RperSFrMu := 3/2, spontRstd := -1, L2Gstd := -2 }

/-- C10 witness feature array: 1 pixel, 4 samples per class, 1 class. -/
def fAw : Fin 1 → Fin 4 → Fin 1 → ℚ := fun _ _ _ => 1

/-!  ### Helper lemmas -/

lemma ok_imp_build {mP : ModelParams nR nF nG nK nP} {d : Draws}
    {out : ConnMats nR nF nG nK nP}
    (h : initializeConnectionMatrices mP d = Except.ok out) :
    out = buildMatrices mP d := by
  unfold initializeConnectionMatrices at h
  split at h
  · exact absurd h (by simp)
  · split at h
    · exact absurd h (by simp)
    · split at h
      · exact absurd h (by simp)
      · exact (Except.ok.injEq _ _).mp h.symm

lemma bern_nonneg (u p : ℚ) : 0 ≤ bern u p := by
  unfold bern; split <;> norm_num

lemma flatRow_transIdx (i j : Fin nG) : flatRow (transIdx i j) = j := by
  apply Fin.ext
  show ((j : ℕ) * nG + (i : ℕ)) / nG = (j : ℕ)
  rw [Nat.add_comm, Nat.add_mul_div_right _ _ i.pos, Nat.div_eq_of_lt i.isLt,
    Nat.zero_add]

lemma flatCol_transIdx (i j : Fin nG) : flatCol (transIdx i j) = i := by
  apply Fin.ext
  show ((j : ℕ) * nG + (i : ℕ)) % nG = (i : ℕ)
  rw [Nat.add_comm, Nat.add_mul_mod_self_right, Nat.mod_eq_of_lt i.isLt]

lemma l2gFlat_transIdx (mP : ModelParams nR nF nG nK nP) (d : Draws)
    (i j : Fin nG) : l2gFlat mP d (transIdx i j) = l2gDiagZero mP d j i := by
  unfold l2gFlat
  rw [flatRow_transIdx, flatCol_transIdx]

lemma l2gDiagZero_nonneg (mP : ModelParams nR nF nG nK nP) (d : Draws)
    (i j : Fin nG) : 0 ≤ l2gDiagZero mP d i j := by
  unfold l2gDiagZero l2gClipped
  split
  · exact le_refl 0
  · exact le_max_left 0 _

lemma l2gFlat_nonneg (mP : ModelParams nR nF nG nK nP) (d : Draws)
    (k : Fin (nG * nG)) : 0 ≤ l2gFlat mP d k :=
  l2gDiagZero_nonneg mP d _ _

lemma l2gKilledFlat_nonneg (mP : ModelParams nR nF nG nK nP) (d : Draws)
    (k : Fin (nG * nG)) : 0 ≤ l2gKilledFlat mP d k := by
  unfold l2gKilledFlat
  split
  · exact le_refl 0
  · exact l2gFlat_nonneg mP d k

lemma l2gFinal_nonneg (mP : ModelParams nR nF nG nK nP) (d : Draws)
    (i j : Fin nG) : 0 ≤ l2gFinal mP d i j := by
  unfold l2gFinal
  split
  · exact l2gKilledFlat_nonneg mP d _
  · exact l2gDiagZero_nonneg mP d i j

lemma l2gFinal_diag_zero (mP : ModelParams nR nF nG nK nP) (d : Draws)
    (i : Fin nG) : l2gFinal mP d i i = 0 := by
  unfold l2gFinal
  split
  · unfold l2gKilledFlat
    rw [l2gFlat_transIdx]
    have hz : l2gDiagZero mP d i i = 0 := by unfold l2gDiagZero; simp
    rw [hz]
    simp
  · unfold l2gDiagZero; simp

/-!  ### Claim theorems -/

/-- C4 (confirmed).  For every ModelParams and every draw sequence for which
`initializeConnectionMatrices` returns matrices, every diagonal entry of the
returned `L2G` (after clipping, down-sampling and the Fortran-order reshape,
and after the final `GsensMu` scaling) is exactly zero. -/
theorem l2g_diagonal_zero (mP : ModelParams nR nF nG nK nP) (d : Draws)
    (out : ConnMats nR nF nG nK nP)
    (hout : initializeConnectionMatrices mP d = Except.ok out) :
    ∀ i : Fin nG, out.L2G i i = 0 := by
  intro i
  rw [ok_imp_build hout]
  show l2gScaled mP d i i = 0
  unfold l2gScaled
  rw [l2gFinal_diag_zero, zero_mul]

/-- Witness for C4 at a concrete accepted input. -/
theorem l2g_diagonal_zero_witness :
    initializeConnectionMatrices (baseParams 1 1 1 1 1) zeroDraws =
      Except.ok (buildMatrices (baseParams 1 1 1 1 1) zeroDraws) ∧
    (buildMatrices (baseParams 1 1 1 1 1) zeroDraws).L2G 0 0 = 0 :=
  ⟨by with_unfolding_all rfl,
    l2g_diagonal_zero (baseParams 1 1 1 1 1) zeroDraws _
      (by with_unfolding_all rfl) 0⟩

/-- C5 counterexample.  With `RperFFrMu = 1/2 > 0`, `RperSFrMu = 9/10` and a
uniform draw of `7/10`, the produced mask entry is 1 although the draw is not
below `RperFFrMu`: the mask is not the Bernoulli(`RperFFrMu`) mask the claim
describes. -/
theorem f2r_threshold_cex :
    initializeConnectionMatrices mPc5 dc5 = Except.ok (buildMatrices mPc5 dc5) ∧
    (buildMatrices mPc5 dc5).F2Rbinary 0 0 = 1 ∧
    ¬ dc5.f2rU 0 0 < mPc5.RperFFrMu :=
  ⟨by with_unfolding_all rfl, by with_unfolding_all decide,
    by with_unfolding_all decide⟩

/-- C5 (corrected).  When `RperFFrMu > 0`, each entry of the produced
`F2Rbinary` is the Bernoulli indicator of its uniform draw lying below
`RperSFrMu` (the parameter the source actually reads at line 25), not
`RperFFrMu`. -/
theorem f2rBinary_bernoulli_RperSFrMu (mP : ModelParams nR nF nG nK nP)
    (d : Draws) (h : 0 < mP.RperFFrMu) (out : ConnMats nR nF nG nK nP)
    (hout : initializeConnectionMatrices mP d = Except.ok out) :
    ∀ i j, (out.F2Rbinary i j = 1 ↔ d.f2rU i j < mP.RperSFrMu) ∧
      (out.F2Rbinary i j = 0 ↔ ¬ d.f2rU i j < mP.RperSFrMu) := by
  intro i j
  rw [ok_imp_build hout]
  show (f2rBinary mP d i j = 1 ↔ _) ∧ (f2rBinary mP d i j = 0 ↔ _)
  unfold f2rBinary
  rw [if_pos h]
  unfold f2rBernoulli bern
  constructor
  · constructor
    · intro h1
      by_contra hlt
      rw [if_neg hlt] at h1
      exact absurd h1 (by norm_num)
    · intro hlt; rw [if_pos hlt]
  · constructor
    · intro h0
      intro hlt
      rw [if_pos hlt] at h0
      exact absurd h0 (by norm_num)
    · intro hlt; rw [if_neg hlt]

/-- Witness for C5's amended theorem at a concrete accepted input. -/
theorem f2rBinary_bernoulli_RperSFrMu_witness :
    (0 : ℚ) < mPc5.RperFFrMu ∧
    ((buildMatrices mPc5 dc5).F2Rbinary 0 0 = 1 ↔
      dc5.f2rU 0 0 < mPc5.RperSFrMu) :=
  ⟨by with_unfolding_all decide,
    (f2rBinary_bernoulli_RperSFrMu mPc5 dc5 (by with_unfolding_all decide) _
      (by with_unfolding_all rfl) 0 0).1⟩

/-- C6 (code bug).  At the failing input `mPc6`/`zeroDraws` (orthogonalize
flag set, single row with two active entries) the orthogonalization branch
does not collapse the row: it raises the `TypeError` of `r.rand(1, c)` with a
tuple argument, modelled as `Except.error`.  The second conjunct exhibits the
row with two active entries that triggers the crash. -/
theorem ortho_branch_type_error :
    initializeConnectionMatrices mPc6 zeroDraws = Except.error typeErrorMsg ∧
    (∑ j : Fin 2, f2rBernoulli mPc6 zeroDraws 0 j) = 2 :=
  ⟨by with_unfolding_all rfl, by with_unfolding_all decide⟩

/-- C7 (code bug).  At the failing input `mPc7`/`dc7` (fixed-fan-in branch,
`nR = nF = 3`, `RperFRawNum = 1`, `randint` draws all 1) the branch does
terminate normally (matrices are produced), but row 0 of `F2Rbinary` receives
3 connections while the claimed cap `ceil(nF*RperFRawNum/nR)` is 1: the
`len(inds)`/`inds[a]` indexing of the `np.where` tuple breaks the fan-in
bound. -/
theorem fanin_cap_exceeded :
    initializeConnectionMatrices mPc7 dc7 = Except.ok (buildMatrices mPc7 dc7) ∧
    maxFperR 3 3 1 = 1 ∧
    (∑ j : Fin 3, (buildMatrices mPc7 dc7).F2Rbinary 0 j) = 3 :=
  ⟨by with_unfolding_all rfl, by with_unfolding_all decide,
    by with_unfolding_all decide⟩

/-- C8 counterexample.  A malformed configuration — connection probability
`3/2` outside `[0,1]`, negative stds — is accepted silently:
`initializeConnectionMatrices` produces matrices and raises no configuration
error. -/
theorem config_not_validated_cex :
    (1 : ℚ) < mPc8.RperSFrMu ∧ mPc8.spontRstd < 0 ∧ mPc8.L2Gstd < 0 ∧
    initializeConnectionMatrices mPc8 zeroDraws =
      Except.ok (buildMatrices mPc8 zeroDraws) :=
  ⟨by with_unfolding_all decide, by with_unfolding_all decide,
    by with_unfolding_all decide, by with_unfolding_all rfl⟩

/-- C8 (corrected).  `initializeConnectionMatrices` performs no validation
and raises no configuration error: on every path that reaches the end —
orthogonalize branch not taken, fan-in cap division defined
(`0 < RperFFrMu ∨ 0 < nR`), Gaussian spontaneous-rate branch selected
(`spontRdistFlag = 1`) — it returns matrices for every parameter record,
however malformed its probabilities, stds or means.  The run-time raises
that do exist on the other paths (the orthogonalize `TypeError`, the
`nR = 0` fan-in `ZeroDivisionError`, the gamma-branch
`ZeroDivisionError`/`ValueError`; all modelled in
`initializeConnectionMatrices`) are incidental arithmetic/typing errors
raised mid-construction, not a fail-fast configuration check. -/
theorem no_config_validation (mP : ModelParams nR nF nG nK nP) (d : Draws)
    (hflag : mP.makeFeaturesOrthogonalFlag = false)
    (hdiv : 0 < mP.RperFFrMu ∨ 0 < nR)
    (hspont : mP.spontRdistFlag = 1) :
    initializeConnectionMatrices mP d = Except.ok (buildMatrices mP d) := by
  unfold initializeConnectionMatrices
  have hc : orthoCrash mP d = false := by
    unfold orthoCrash
    rw [hflag]
    simp
  have hf : faninDivCrash mP = false := by
    unfold faninDivCrash
    rcases hdiv with h | h
    · simp [h]
    · simp [Nat.pos_iff_ne_zero.mp h]
  have hg : gammaBranchError mP = none := by
    unfold gammaBranchError
    rw [if_pos hspont]
  rw [hc, hf, hg]
  rfl

/-- Witness for C8's amended theorem at the malformed input `mPc8`. -/
theorem no_config_validation_witness :
    mPc8.makeFeaturesOrthogonalFlag = false ∧ mPc8.spontRdistFlag = 1 ∧
    initializeConnectionMatrices mPc8 zeroDraws =
      Except.ok (buildMatrices mPc8 zeroDraws) :=
  ⟨rfl, rfl, no_config_validation mPc8 zeroDraws rfl
    (Or.inl (by with_unfolding_all decide)) rfl⟩

/-- C9 (confirmed).  The `L2G` down-sampling step (lines 91-92) only ever
assigns 0, and only to entries strictly positive at that point: every entry
equal to 0 before the step (the zeroed diagonal included) is unchanged, and
no entry is changed to a different non-zero value. -/
theorem l2g_kill_frame (mP : ModelParams nR nF nG nK nP) (d : Draws)
    (k : Fin (nG * nG)) :
    (l2gFlat mP d k = 0 → l2gKilledFlat mP d k = 0) ∧
    (l2gKilledFlat mP d k = l2gFlat mP d k ∨
      (0 < l2gFlat mP d k ∧ l2gKilledFlat mP d k = 0)) := by
  constructor
  · intro h0
    unfold l2gKilledFlat
    split
    · rfl
    · exact h0
  · unfold l2gKilledFlat
    split
    case isTrue h => exact Or.inr ⟨h.1, rfl⟩
    case isFalse h => exact Or.inl rfl

/-- C1 counterexample.  A ModelParams with `R2Pmult = -1` (and `R2Gmu = 1`)
is accepted, yet the produced `R2P` entry is negative: without nonnegativity
assumptions on the unclipped parameters the invariant fails. -/
theorem connMatrices_nonneg_cex :
    initializeConnectionMatrices mPc1 zeroDraws =
      Except.ok (buildMatrices mPc1 zeroDraws) ∧
    (buildMatrices mPc1 zeroDraws).R2P 0 < 0 :=
  ⟨by with_unfolding_all rfl, by with_unfolding_all decide⟩

/-- C1 (corrected).  For every ModelParams whose unclipped scalar parameters
are nonnegative (`NonnegConfig`) and every draw sequence with nonnegative
draws on the unclipped streams (`Draws.Nonneg`; uniform draws lie in `[0,1)`
and gamma variates are nonnegative), every entry of every produced matrix and
vector is `≥ 0`, and every position zeroed by a binary connectivity mask
(`F2Rbinary` for `F2R`, the zero pattern of the down-sampled `L2G` for
`L2R`/`L2P`/`L2L`/`L2PI`, `P2KconnMatrix` for `P2K`) is exactly 0 in the
weighted matrix. -/
theorem connMatrices_nonneg_masked_zero (mP : ModelParams nR nF nG nK nP)
    (d : Draws) (hd : d.Nonneg) (hm : mP.NonnegConfig)
    (out : ConnMats nR nF nG nK nP)
    (hout : initializeConnectionMatrices mP d = Except.ok out) :
    (∀ i j, 0 ≤ out.F2R i j) ∧ (∀ i, 0 ≤ out.Rspont i) ∧
    (∀ i, 0 ≤ out.R2G i) ∧ (∀ i, 0 ≤ out.R2P i) ∧ (∀ i, 0 ≤ out.R2L i) ∧
    (∀ i, 0 ≤ out.R2PIcol i) ∧ (∀ i j, 0 ≤ out.L2G i j) ∧
    (∀ i j, 0 ≤ out.L2R i j) ∧ (∀ i j, 0 ≤ out.L2P i j) ∧
    (∀ i j, 0 ≤ out.L2L i j) ∧ (∀ i j, 0 ≤ out.L2PI i j) ∧
    (∀ i j, 0 ≤ out.P2K i j) ∧
    (∀ i j, out.F2Rbinary i j = 0 → out.F2R i j = 0) ∧
    (∀ i j, l2gFinal mP d i j = 0 →
      out.L2R i j = 0 ∧ out.L2P i j = 0 ∧ out.L2L i j = 0 ∧ out.L2PI i j = 0) ∧
    (∀ i j, p2kConn mP d i j = 0 → out.P2K i j = 0) := by
  obtain ⟨hgamma, hr2gU, hr2pU, hr2lU, hr2piU, hgabaU⟩ := hd
  obtain ⟨hbase, hR2Gmu, hR2Gstd, hR2Pmult, hR2Pstd, hR2Lmult, hR2Lstd,
    hR2PImult, hR2PIstd, hGmu, hGstd, hheb⟩ := hm
  rw [ok_imp_build hout]
  simp only [buildMatrices]
  have hr2gN : ∀ i : Fin nG, 0 ≤ r2g mP d i := fun i =>
    add_nonneg hR2Gmu (mul_nonneg hR2Gstd (hr2gU i))
  have hgabaN : ∀ i : Fin nG, 0 ≤ gabaSens mP d i := fun i =>
    add_nonneg hGmu (mul_nonneg hGstd (hgabaU i))
  have hgabaM : ∀ i j : Fin nG, 0 ≤ l2gGaba mP d i j := fun i j =>
    mul_nonneg (l2gFinal_nonneg mP d i j) (hgabaN i)
  refine ⟨?_, ?_, hr2gN, ?_, ?_, ?_, ?_, ?_, ?_, ?_, ?_, ?_, ?_, ?_, ?_⟩
  · intro i j
    unfold f2rWeights
    exact le_max_left 0 _
  · intro i
    unfold rspont
    split
    · exact le_max_left 0 _
    · exact add_nonneg hbase (hgamma i)
  · intro i
    unfold r2p
    exact mul_nonneg (add_nonneg hR2Pmult (mul_nonneg hR2Pstd (hr2pU i))) (hr2gN i)
  · intro i
    unfold r2l
    exact mul_nonneg (add_nonneg hR2Lmult (mul_nonneg hR2Lstd (hr2lU i))) (hr2gN i)
  · intro i
    unfold r2piCol
    exact mul_nonneg (add_nonneg hR2PImult (mul_nonneg hR2PIstd (hr2piU i))) (hr2gN i)
  · intro i j
    unfold l2gScaled
    exact mul_nonneg (l2gFinal_nonneg mP d i j) hGmu
  · intro i j
    unfold l2r
    exact mul_nonneg (le_max_left 0 _) (hgabaM i j)
  · intro i j
    unfold l2p
    exact mul_nonneg (le_max_left 0 _) (hgabaM i j)
  · intro i j
    unfold l2l
    exact mul_nonneg (le_max_left 0 _) (hgabaM i j)
  · intro i j
    unfold l2pi
    exact mul_nonneg (le_max_left 0 _) (hgabaM i j)
  · intro i j
    unfold p2k
    exact le_min (mul_nonneg (le_max_left 0 _) (bern_nonneg _ _)) hheb
  · intro i j h
    unfold f2rWeights
    rw [h]
    simp
  · intro i j h
    refine ⟨?_, ?_, ?_, ?_⟩ <;>
      simp [l2r, l2p, l2l, l2pi, l2gGaba, h]
  · intro i j h
    unfold p2k
    rw [h, mul_zero]
    exact min_eq_left hheb

/-- Witness for C1's amended theorem at a concrete accepted input. -/
theorem connMatrices_nonneg_masked_zero_witness :
    Draws.Nonneg zeroDraws ∧ (baseParams 1 1 1 1 1).NonnegConfig ∧
    (0 : ℚ) ≤ (buildMatrices (baseParams 1 1 1 1 1) zeroDraws).P2K 0 0 := by
  have hd : Draws.Nonneg zeroDraws :=
    ⟨fun _ => le_refl 0, fun _ => le_refl 0, fun _ => le_refl 0,
      fun _ => le_refl 0, fun _ => le_refl 0, fun _ => le_refl 0⟩
  have hm : (baseParams 1 1 1 1 1).NonnegConfig := by
    unfold ModelParams.NonnegConfig baseParams
    norm_num
  refine ⟨hd, hm, ?_⟩
  exact (connMatrices_nonneg_masked_zero (baseParams 1 1 1 1 1) zeroDraws hd hm
    _ (by with_unfolding_all rfl)).2.2.2.2.2.2.2.2.2.2.2.1 0 0

/-- C2 counterexample.  With a negative Hebbian ceiling (`hebMaxPK = -1`) the
input is accepted but the produced `P2K` entry equals `-1`, outside the
claimed interval `[0, hebMaxPK]`. -/
theorem p2k_ceiling_cex :
    initializeConnectionMatrices mPc2 zeroDraws =
      Except.ok (buildMatrices mPc2 zeroDraws) ∧
    (buildMatrices mPc2 zeroDraws).P2K 0 0 ∉
      Set.Icc (0 : ℚ) mPc2.hebMaxPK := by
  refine ⟨by with_unfolding_all rfl, ?_⟩
  intro hmem
  rw [Set.mem_Icc] at hmem
  have h1 : (buildMatrices mPc2 zeroDraws).P2K 0 0 = -1 := by
    with_unfolding_all decide
  rw [h1] at hmem
  exact absurd hmem.1 (by norm_num)

/-- C2 (corrected).  Every produced `P2K` entry is at most `hebMaxPK`
(unconditionally, by the final `clip(max=hebMaxPK)`), and whenever the
configured ceiling is nonnegative every entry lies in `[0, hebMaxPK]`. -/
theorem p2k_within_ceiling (mP : ModelParams nR nF nG nK nP) (d : Draws)
    (out : ConnMats nR nF nG nK nP)
    (hout : initializeConnectionMatrices mP d = Except.ok out) :
    (∀ i j, out.P2K i j ≤ mP.hebMaxPK) ∧
    (0 ≤ mP.hebMaxPK →
      ∀ i j, out.P2K i j ∈ Set.Icc (0 : ℚ) mP.hebMaxPK) := by
  rw [ok_imp_build hout]
  simp only [buildMatrices]
  constructor
  · intro i j
    unfold p2k
    exact min_le_right _ _
  · intro hheb i j
    rw [Set.mem_Icc]
    unfold p2k
    exact ⟨le_min (mul_nonneg (le_max_left 0 _) (bern_nonneg _ _)) hheb,
      min_le_right _ _⟩

/-- Witness for C2's amended theorem at a concrete accepted input. -/
theorem p2k_within_ceiling_witness :
    (0 : ℚ) ≤ (baseParams 1 1 1 1 1).hebMaxPK ∧
    (buildMatrices (baseParams 1 1 1 1 1) zeroDraws).P2K 0 0 ∈
      Set.Icc (0 : ℚ) (baseParams 1 1 1 1 1).hebMaxPK := by
  have hheb : (0 : ℚ) ≤ (baseParams 1 1 1 1 1).hebMaxPK := by
    unfold baseParams
    norm_num
  exact ⟨hheb, (p2k_within_ceiling (baseParams 1 1 1 1 1) zeroDraws _
    (by with_unfolding_all rfl)).2 hheb 0 0⟩

lemma transIdx_invol (k : Fin (nG * nG)) : transIdx (flatCol k) (flatRow k) = k := by
  apply Fin.ext
  show ((flatRow k : ℕ)) * nG + ((flatCol k : ℕ)) = (k : ℕ)
  show ((k : ℕ) / nG) * nG + (k : ℕ) % nG = (k : ℕ)
  rw [Nat.mul_comm]
  exact Nat.div_add_mod _ _

/-- Under `numToKill > 0`, the number of non-zero entries of the reshaped
`L2G` equals the number of surviving (non-zero) entries of the flattened
killed array: the Fortran-order reshape is a bijection on positions. -/
lemma l2gNonzeroCount_eq_survivors (mP : ModelParams nR nF nG nK nP)
    (d : Draws) (h : 0 < numToKill mP d) :
    l2gNonzeroCount mP d =
      (Finset.univ.filter
        (fun k : Fin (nG * nG) => l2gKilledFlat mP d k ≠ 0)).card := by
  unfold l2gNonzeroCount
  apply Finset.card_nbij' (fun q : Fin nG × Fin nG => transIdx q.1 q.2)
    (fun k => (flatCol k, flatRow k))
  · intro q hq
    rw [Finset.mem_filter] at hq ⊢
    refine ⟨Finset.mem_univ _, ?_⟩
    have he : l2gFinal mP d q.1 q.2 = l2gKilledFlat mP d (transIdx q.1 q.2) := by
      unfold l2gFinal
      rw [if_pos h]
    rw [← he]
    exact hq.2
  · intro k hk
    rw [Finset.mem_filter] at hk ⊢
    refine ⟨Finset.mem_univ _, ?_⟩
    have he : l2gFinal mP d (flatCol k) (flatRow k) = l2gKilledFlat mP d k := by
      unfold l2gFinal
      rw [if_pos h, transIdx_invol]
    rw [he]
    exact hk.2
  · intro q hq
    have h1 := flatCol_transIdx q.1 q.2
    have h2 := flatRow_transIdx q.1 q.2
    exact Prod.ext h1 h2
  · intro k hk
    exact transIdx_invol k

/-- The entries positive before the thinning step split into the killed ones
and the surviving ones. -/
lemma survivors_add_killCount (mP : ModelParams nR nF nG nK nP) (d : Draws) :
    (Finset.univ.filter
      (fun k : Fin (nG * nG) => l2gKilledFlat mP d k ≠ 0)).card +
      killCount mP d =
    (Finset.univ.filter
      (fun k : Fin (nG * nG) => 0 < l2gFlat mP d k)).card := by
  have hsurv : (Finset.univ.filter
      (fun k : Fin (nG * nG) => l2gKilledFlat mP d k ≠ 0)) =
      (Finset.univ.filter (fun k : Fin (nG * nG) => 0 < l2gFlat mP d k)).filter
        (fun k : Fin (nG * nG) => ¬ d.killU k < killThreshold mP d) := by
    rw [Finset.filter_filter]
    ext k
    simp only [Finset.mem_filter, Finset.mem_univ, true_and]
    unfold l2gKilledFlat
    constructor
    · intro hne
      by_cases hc : 0 < l2gFlat mP d k ∧ d.killU k < killThreshold mP d
      · rw [if_pos hc] at hne
        exact absurd rfl hne
      · rw [if_neg hc] at hne
        have hpos : 0 < l2gFlat mP d k :=
          lt_of_le_of_ne (l2gFlat_nonneg mP d k) (Ne.symm hne)
        exact ⟨hpos, fun hk => hc ⟨hpos, hk⟩⟩
    · rintro ⟨hpos, hnk⟩
      rw [if_neg (fun hc => hnk hc.2)]
      exact ne_of_gt hpos
  have hkill : killCount mP d =
      ((Finset.univ.filter (fun k : Fin (nG * nG) => 0 < l2gFlat mP d k)).filter
        (fun k : Fin (nG * nG) => d.killU k < killThreshold mP d)).card := by
    unfold killCount
    rw [Finset.filter_filter]
  rw [hsurv, hkill, Nat.add_comm]
  exact Finset.filter_card_add_filter_neg_card_eq_card _

/-- The positive entries and the zero entries of the flattened matrix
together exhaust all `nG * nG` positions. -/
lemma posCount_add_zeroCount (mP : ModelParams nR nF nG nK nP) (d : Draws) :
    (Finset.univ.filter
      (fun k : Fin (nG * nG) => 0 < l2gFlat mP d k)).card +
      l2gZeroCount mP d = nG * nG := by
  have hpos : (Finset.univ.filter
      (fun k : Fin (nG * nG) => 0 < l2gFlat mP d k)) =
      (Finset.univ.filter (fun k : Fin (nG * nG) => ¬ l2gFlat mP d k = 0)) := by
    ext k
    simp only [Finset.mem_filter, Finset.mem_univ, true_and]
    constructor
    · intro h
      exact ne_of_gt h
    · intro h
      exact lt_of_le_of_ne (l2gFlat_nonneg mP d k) (Ne.symm h)
  rw [hpos]
  unfold l2gZeroCount
  rw [Nat.add_comm]
  have := Finset.filter_card_add_filter_neg_card_eq_card
    (s := (Finset.univ : Finset (Fin (nG * nG))))
    (fun k => l2gFlat mP d k = 0)
  rw [Finset.card_univ, Fintype.card_fin] at this
  exact this

/-- C3 counterexample.  With `nG = 3`, all off-diagonal entries 1 and target
fraction `L2Gfr = 1/2`, the all-zero kill draws fall below the thinning
threshold everywhere, so every non-zero entry is zeroed: the realized
non-zero count is 0 while the target is `L2Gfr*(nG^2-nG) = 3`, off by 3
discrete units. -/
theorem l2g_sparsity_cex :
    initializeConnectionMatrices mPc3 zeroDraws =
      Except.ok (buildMatrices mPc3 zeroDraws) ∧
    l2gNonzeroCount mPc3 zeroDraws = 0 ∧
    ¬ (|(l2gNonzeroCount mPc3 zeroDraws : ℚ) -
        mPc3.L2Gfr * ((3 : ℚ) ^ 2 - 3)| ≤ 1) :=
  ⟨by with_unfolding_all rfl, by with_unfolding_all decide,
    by with_unfolding_all decide⟩

/-- C3 (corrected).  The down-sampling step thins each positive entry
independently (Bernoulli with probability `numToKill/(nG^2-nG-numZero)`), so
the target is hit only when the draws happen to kill exactly `numToKill`
entries; under that hypothesis the realized non-zero count matches
`L2Gfr*(nG^2-nG)` to within one discrete unit. -/
theorem l2g_sparsity_exact_kill (mP : ModelParams nR nF nG nK nP) (d : Draws)
    (h1 : 0 < numToKill mP d)
    (h2 : (killCount mP d : ℤ) = numToKill mP d) :
    |(l2gNonzeroCount mP d : ℚ) - mP.L2Gfr * ((nG : ℚ) ^ 2 - (nG : ℚ))| ≤ 1 := by
  have hsum : l2gNonzeroCount mP d + killCount mP d + l2gZeroCount mP d =
      nG * nG := by
    have hA := l2gNonzeroCount_eq_survivors mP d h1
    have hB := survivors_add_killCount mP d
    have hC := posCount_add_zeroCount mP d
    omega
  set T : ℚ := (1 - mP.L2Gfr) * ((nG : ℚ) ^ 2 - (nG : ℚ)) -
    ((numZero mP d : ℤ) : ℚ) with hT
  have hfl : numToKill mP d = ⌊T⌋ := by
    rw [hT]
    rfl
  have hle : ((⌊T⌋ : ℤ) : ℚ) ≤ T := Int.floor_le T
  have hlt : T < ((⌊T⌋ : ℤ) : ℚ) + 1 := Int.lt_floor_add_one T
  have h2Q : (killCount mP d : ℚ) = ((⌊T⌋ : ℤ) : ℚ) := by
    exact_mod_cast h2.trans hfl
  have hnz : ((numZero mP d : ℤ) : ℚ) = (l2gZeroCount mP d : ℚ) - (nG : ℚ) := by
    unfold numZero
    push_cast
    ring
  have hsumQ : (l2gNonzeroCount mP d : ℚ) + (killCount mP d : ℚ) +
      (l2gZeroCount mP d : ℚ) = (nG : ℚ) * (nG : ℚ) := by
    exact_mod_cast hsum
  have hsq : ((nG : ℚ)) ^ 2 = (nG : ℚ) * (nG : ℚ) := by ring
  have hTP : T = ((nG : ℚ) ^ 2 - (nG : ℚ)) -
      mP.L2Gfr * ((nG : ℚ) ^ 2 - (nG : ℚ)) -
      ((l2gZeroCount mP d : ℚ) - (nG : ℚ)) := by
    rw [hT, hnz]
    ring
  rw [abs_le]
  constructor <;> nlinarith [hle, hlt, h2Q, hsumQ, hTP, hsq]

/-- Witness for C3's amended theorem: `nG = 3`, six positive entries,
`numToKill = 3`, and kill draws that thin exactly the three flat positions
1, 2, 3. -/
theorem l2g_sparsity_exact_kill_witness :
    0 < numToKill mPc3 dc3w ∧ (killCount mPc3 dc3w : ℤ) = numToKill mPc3 dc3w ∧
    |(l2gNonzeroCount mPc3 dc3w : ℚ) - mPc3.L2Gfr * ((3 : ℚ) ^ 2 - 3)| ≤ 1 :=
  ⟨by with_unfolding_all decide, by with_unfolding_all decide,
    l2g_sparsity_exact_kill mPc3 dc3w (by with_unfolding_all decide)
      (by with_unfolding_all decide)⟩

/-- Auxiliary frame lemma for the digit-queue assembly: a slice write at
columns `[lo, lo+len)` with `lo+len ≤ B` does not touch a column at
index `≥ B`. -/
lemma writeSlice_frame {P M C : ℕ} (fA : Fin P → Fin M → Fin C → ℚ)
    (cls : Fin C) (lo len : ℕ) (inds : ℕ → Fin M)
    (q : Fin P → Fin M → Fin C → ℚ) {B : ℕ} (hlen : lo + len ≤ B)
    (px : Fin P) (col : Fin M) (c : Fin C) (hcol : B ≤ (col : ℕ)) :
    writeSlice fA cls lo len inds q px col c = q px col c := by
  unfold writeSlice
  rw [if_neg]
  rintro ⟨-, -, h3⟩
  omega

/-- Auxiliary invariant for the digit-queue assembly: the per-class fold
preserves "all columns at index `≥ 2*v + t*s` are zero". -/
lemma digitQueues_foldl_frame {P M C : ℕ} (fA : Fin P → Fin M → Fin C → ℚ)
    (v t s : ℕ) (bI tI pI : Fin C → ℕ → Fin M) (l : List (Fin C))
    (q : Fin P → Fin M → Fin C → ℚ)
    (hq : ∀ (px : Fin P) (col : Fin M) (cls : Fin C),
      2 * v + t * s ≤ (col : ℕ) → q px col cls = 0) :
    ∀ (px : Fin P) (col : Fin M) (cls : Fin C), 2 * v + t * s ≤ (col : ℕ) →
      (l.foldl
        (fun q i =>
          writeSlice fA i (v + t * s) v (pI i)
            (writeSlice fA i v (t * s) (fun k => tI i (k % t))
              (writeSlice fA i 0 v (bI i) q)))
        q) px col cls = 0 := by
  induction l generalizing q with
  | nil => exact hq
  | cons a l ih =>
    rw [List.foldl_cons]
    apply ih
    intro px col cls hcol
    rw [writeSlice_frame fA a (v + t * s) v (pI a) _ (by omega) px col cls hcol,
      writeSlice_frame fA a v (t * s) _ _ (by omega) px col cls hcol,
      writeSlice_frame fA a 0 v (bI a) q (by omega) px col cls hcol]
    exact hq px col cls hcol

/-- C10 (confirmed).  `digitQueues` is allocated with the shape of `fA`
(`np.zeros(fA.shape)`), and under the slice-shape precondition
`2*val_per_class + tr_per_class*num_sniffs ≤ numPerClass` (without which the
slice assignments raise a `ValueError`) only sample columns
`0 .. 2*v + t*s - 1` are ever written: every column at index `≥ 2*v + t*s`
of the assembled array is exactly zero, for every class. -/
theorem digitQueues_tail_zero {P M C : ℕ} (fA : Fin P → Fin M → Fin C → ℚ)
    (v t s : ℕ) (bI tI pI : Fin C → ℕ → Fin M) (hM : 2 * v + t * s ≤ M) :
    ∀ (px : Fin P) (col : Fin M) (cls : Fin C), 2 * v + t * s ≤ (col : ℕ) →
      digitQueues fA v t s bI tI pI px col cls = 0 := by
  intro px col cls hcol
  unfold digitQueues
  exact digitQueues_foldl_frame fA v t s bI tI pI (List.finRange C)
    (fun _ _ _ => 0) (fun _ _ _ _ => rfl) px col cls hcol

/-- Witness for C10 at a concrete instance (`M = 4`, `v = t = s = 1`,
column 3 is beyond the written range). -/
theorem digitQueues_tail_zero_witness :
    2 * 1 + 1 * 1 ≤ 4 ∧
    digitQueues fAw 1 1 1 (fun _ _ => 0) (fun _ _ => 0) (fun _ _ => 0)
      0 3 0 = 0 :=
  ⟨by norm_num,
    digitQueues_tail_zero fAw 1 1 1 (fun _ _ => 0) (fun _ _ => 0)
      (fun _ _ => 0) (by norm_num) 0 3 0 (by decide)⟩

end PyAL
